import Mathlib

/-!
Shallow embedding of `src/telegram_token_price_bot.py`.

Prices and bounds are modelled as rationals (`Rat`).  A Python dict of
bounds (string keys mapping to numbers, insertion-ordered) is modelled as
an association list `List (String × Rat)`; `token.get("bounds")` yielding
`None` is modelled by `Option`.  The price oracle `get_token_price` and the
Python builtin `float` are modelled as function parameters
(`getPrice : String → Option Rat`, `pf : String → Option Rat`), since both
are external calls whose only relevant behaviour is returning a value or
failing.
-/

namespace TokenBot

/-- Python `s.upper()`, modelled character-wise over the string's data so
that it evaluates by kernel reduction. -/
def strUpper (s : String) : String := ⟨s.data.map Char.toUpper⟩

/-- Helper for `strSplitEq`: splits a character list at every `=`. -/
def splitOnEq (l : List Char) (cur : List Char) : List String :=
  match l with
  | [] => [⟨cur.reverse⟩]
  | c :: rest => if c = '=' then ⟨cur.reverse⟩ :: splitOnEq rest [] else splitOnEq rest (c :: cur)

/-- Python `p.split("=")` (the only separator the source splits bound
tokens on). -/
def strSplitEq (s : String) : List String := splitOnEq s.data []

/-- Python `"=" in p`. -/
def strContainsEq (s : String) : Bool := s.data.any (fun c => c == '=')

/-- Python `s.strip()`. -/
def strTrim (s : String) : String :=
  ⟨((s.data.dropWhile Char.isWhitespace).reverse.dropWhile Char.isWhitespace).reverse⟩

/-- One entry of `targets.json`: a dict with keys `symbol`, `id` and the
optional `bounds` dict (lines 52-54, 79-88 of the source). -/
structure Target where
  symbol : String
  id : String
  bounds : Option (List (String × Rat))
deriving DecidableEq, Repr

/-- Python dict lookup `b[k]` / `k in b` on the association-list model:
returns the value at the first occurrence of the key. -/
def dictFind (k : String) : List (String × Rat) → Option Rat
  | [] => none
  | (k', v) :: rest => if k' = k then some v else dictFind k rest

/-- Python `b.pop(k)`: removes the key from the dict (keys are unique in a
dict, so removing every occurrence in the association list is faithful). -/
def dictPop (k : String) (b : List (String × Rat)) : List (String × Rat) :=
  b.filter (fun p => p.1 != k)

/-- Python dict assignment `b[k] = v`: overwrite in place if the key is
present, otherwise append (dicts preserve insertion order). -/
def dictInsert (k : String) (v : Rat) : List (String × Rat) → List (String × Rat)
  | [] => [(k, v)]
  | (k', v') :: rest => if k' = k then (k, v) :: rest else (k', v') :: dictInsert k v rest

/-- Python truthiness test `not bounds` (line 60): true when the `bounds`
key is missing or maps to an empty dict. -/
def boundsFalsy : Option (List (String × Rat)) → Bool
  | none => true
  | some b => b.isEmpty

/-- A notification message sent with `bot.send_message` (lines 67-68 and
73-74): which bound was hit, for which symbol, at which configured bound
and current price. -/
inductive Notif where
  | lowerHit (symbol : String) (bound price : Rat)
  | upperHit (symbol : String) (bound price : Rat)
deriving DecidableEq, Repr

/-- Line 66: `"lower" in bounds and price <= bounds["lower"]`. -/
def lowerFires (b : List (String × Rat)) (price : Rat) : Bool :=
  match dictFind "lower" b with
  | some lo => decide (price ≤ lo)
  | none => false

/-- Line 72: `"upper" in bounds and price >= bounds["upper"]`. -/
def upperFires (b : List (String × Rat)) (price : Rat) : Bool :=
  match dictFind "upper" b with
  | some hi => decide (hi ≤ price)
  | none => false

/-- Lines 64-76: `updated_bounds = bounds.copy()` followed by the two
conditional `pop`s.  Both conditions are tested on the original `bounds`,
the pops act on the copy. -/
def updatedBounds (b : List (String × Rat)) (price : Rat) : List (String × Rat) :=
  let ub1 := if lowerFires b price then dictPop "lower" b else b
  if upperFires b price then dictPop "upper" ub1 else ub1

/-- The notifications sent for one token during one cycle (lines 66-76),
lower first, then upper, matching the order of the two `if` blocks. -/
def targetNotifs (symbol : String) (b : List (String × Rat)) (price : Rat) : List Notif :=
  (if lowerFires b price then [Notif.lowerHit symbol ((dictFind "lower" b).getD 0) price] else [])
    ++ (if upperFires b price then [Notif.upperHit symbol ((dictFind "upper" b).getD 0) price] else [])

/-- Lines 60-88: the per-token evaluation of `check_prices` once a price is
available: the falsy-bounds short-circuit appends the token unchanged;
otherwise the two bound checks run and the rebuilt entry omits the
`bounds` key when the updated dict is empty. -/
def evalTarget (t : Target) (price : Rat) : List Notif × Target :=
  if boundsFalsy t.bounds then ([], t)
  else
    let b := t.bounds.getD []
    let ub := updatedBounds b price
    (targetNotifs t.symbol b price,
      if ub.isEmpty then ⟨t.symbol, t.id, none⟩ else ⟨t.symbol, t.id, some ub⟩)

/-- The body of the `for token in targets` loop (lines 51-88), folding the
accumulator `(updated_targets, sent notifications, changes_made)`.  When
`get_token_price` returns `None` the loop does `continue` without
appending the token to `updated_targets` (lines 57-58). -/
def cycleStep (getPrice : String → Option Rat) (acc : List Target × List Notif × Bool)
    (token : Target) : List Target × List Notif × Bool :=
  match getPrice token.id with
  | none => acc
  | some price =>
    let r := evalTarget token price
    (acc.1 ++ [r.2], acc.2.1 ++ r.1, acc.2.2 || !r.1.isEmpty)

/-- One full pass of the `check_prices` loop body over the loaded targets
(lines 47-88): returns `(updated_targets, notifications, changes_made)`. -/
def check_prices_cycle (getPrice : String → Option Rat) (targets : List Target) :
    List Target × List Notif × Bool :=
  targets.foldl (cycleStep getPrice) ([], [], false)

/-- Lines 90-91: the store contents after one cycle — `updated_targets` is
persisted only when `changes_made` is set, otherwise the persisted store is
left as it was. -/
def cycleStore (getPrice : String → Option Rat) (s : List Target) : List Target :=
  let r := check_prices_cycle getPrice s
  if r.2.2 then r.1 else s

/-- The filesystem state relevant to the store: the contents of
`targets.json` and of `targets.json.bak`, each `none` when the file does
not exist.  Contents are kept at the parsed level. -/
structure FS where
  targetsFile : Option (List Target)
  bakFile : Option (List Target)
deriving DecidableEq, Repr

/-- Lines 29-32, `save_targets`: `shutil.copy(TARGETS_FILE, TARGETS_FILE + ".bak")`
raises `FileNotFoundError` when `targets.json` does not exist (nothing
catches it); otherwise the backup receives the current contents and the
live file is rewritten with the new list. -/
def save_targets (fs : FS) (ts : List Target) : Except String FS :=
  match fs.targetsFile with
  | none => .error "FileNotFoundError"
  | some cur => .ok ⟨some ts, some cur⟩

/-- Lines 22-26, `load_targets`: the parsed file contents, or `[]` when the
file does not exist. -/
def load_targets (fs : FS) : List Target := fs.targetsFile.getD []

/-- The observable outcome of one `handle_message` invocation: the store
contents afterwards, the reply sent (if any), whether `save_targets` was
called, whether an exception escaped the handler, and whether
`load_targets` was reached. -/
structure HandlerResult where
  store : List Target
  reply : Option String
  saved : Bool
  exn : Bool
  loaded : Bool
deriving DecidableEq, Repr

/-- Outcome of the bound-parsing loop of the `add` command (lines 133-141). -/
inductive ParseBoundsResult where
  | ok (bounds : List (String × Rat))
  | invalid (k v : String)
  | exn
deriving DecidableEq, Repr

/-- Lines 133-141: for each remaining token containing `=`, split on `=`
and destructure into `k, v`; a split yielding anything but exactly two
pieces makes the `k, v = p.split("=")` unpacking raise `ValueError`
(uncaught: the `try` only wraps `float(v)`); a value `float` rejects takes
the `Invalid value` reply path.  `pf` stands for Python `float`. -/
def parseBounds (pf : String → Option Rat) : List String → List (String × Rat) → ParseBoundsResult
  | [], acc => .ok acc
  | p :: rest, acc =>
    if strContainsEq p then
      match strSplitEq p with
      | [k, v] =>
        match pf v with
        | some x => parseBounds pf rest (dictInsert k x acc)
        | none => .invalid k v
      | _ => .exn
    else parseBounds pf rest acc

/-- Line 128 reply. -/
def formatReply : String := "Format: add SYMBOL ID [lower=XX] [upper=YY]"

/-- Line 140 reply, naming the offending key and value. -/
def invalidValueReply (k v : String) : String := "Invalid value for " ++ k ++ ": " ++ v

/-- Line 145 reply. -/
def duplicateReply (symbol : String) : String := "Token " ++ symbol ++ " already exists."

/-- Line 161 reply (the numeric bounds description is summarised). -/
def addedReply (symbol tokenId : String) (bounds : List (String × Rat)) : String :=
  "Added " ++ symbol ++ " (" ++ tokenId ++ ")" ++ (if bounds.isEmpty then "" else " with bounds")

/-- Line 189 reply. -/
def notFoundReply (symbol : String) : String := "Symbol " ++ symbol ++ " was not found."

/-- Line 192 reply. -/
def removedReply (symbol : String) : String := "Removed " ++ symbol ++ " from tracking."

/-- Lines 125-162, the `add` branch of `handle_message`.  `parts` is the
whitespace-split of the already-lowercased message text (line 100, 126);
`store` is the current contents of `targets.json`.  Bounds are parsed
before `load_targets` is called (lines 133-141 precede line 143), hence
`loaded := false` on the early-return paths. -/
def handle_message_add (pf : String → Option Rat) (parts : List String)
    (store : List Target) : HandlerResult :=
  if parts.length < 3 then
    ⟨store, some formatReply, false, false, false⟩
  else
    let symbol := strUpper (parts.getD 1 "")
    let tokenId := parts.getD 2 ""
    match parseBounds pf (parts.drop 3) [] with
    | .invalid k v => ⟨store, some (invalidValueReply k v), false, false, false⟩
    | .exn => ⟨store, none, false, true, false⟩
    | .ok bounds =>
      if store.any (fun t => strUpper t.symbol == symbol) then
        ⟨store, some (duplicateReply symbol), false, false, true⟩
      else
        ⟨store ++ [⟨symbol, tokenId, if bounds.isEmpty then none else some bounds⟩],
          some (addedReply symbol tokenId bounds), true, false, true⟩

/-- Lines 184-193, the `remove` branch of `handle_message`.  `symRaw` is
the (lowercased) text after `remove `; the list comprehension keeps every
target whose upper-cased symbol differs, and removal is detected by
comparing lengths. -/
def handle_message_remove (symRaw : String) (store : List Target) : HandlerResult :=
  let symbol := strUpper (strTrim symRaw)
  let newTargets := store.filter (fun t => strUpper t.symbol != symbol)
  if newTargets.length = store.length then
    ⟨store, some (notFoundReply symbol), false, false, true⟩
  else
    ⟨newTargets, some (removedReply symbol), true, false, true⟩

/-- A concrete interleaving of one Monitor cycle with one `add` command,
as the asyncio event loop allows it: `check_prices` calls `load_targets`
(line 47, store `s0`), then suspends at an `await bot.send_message` inside
the loop (line 67/73 — whenever `changes_made` ends up true, at least one
such suspension occurred between the load and the save); while suspended,
`handle_message` runs to completion (its own load, mutate, `save_targets`
sequence contains no `await`, so it is a single atomic block); then
`check_prices` resumes and, at line 91, saves `updated_targets`, which was
computed from the stale `s0`.  Returns the store just after the handler's
save, and the final store after the Monitor's conditional save. -/
def interleavedCycleWithAdd (getPrice : String → Option Rat) (pf : String → Option Rat)
    (addParts : List String) (s0 : List Target) : List Target × List Target :=
  let hres := handle_message_add pf addParts s0
  let sMid := hres.store
  let r := check_prices_cycle getPrice s0
  (sMid, if r.2.2 then r.1 else sMid)

/-- C1: the claim says a target whose price lookup is absent is carried
through unchanged into the output set a persisting cycle saves.  On the
store `[AAA (lower bound 1, id aaa), BBB (id bbb)]` with the oracle
returning 0 for `aaa` and absent for `bbb`, the cycle sets `changes_made`
(AAA's lower bound fires), and the persisted output set is `[AAA without
bounds]`: BBB has been dropped, merely because its price was unavailable
that cycle. -/
theorem c1_cycle_drops_unpriced_target :
    (check_prices_cycle (fun i => if i = "aaa" then some 0 else none)
        [⟨"AAA", "aaa", some [("lower", 1)]⟩, ⟨"BBB", "bbb", none⟩]).2.2 = true ∧
    cycleStore (fun i => if i = "aaa" then some 0 else none)
        [⟨"AAA", "aaa", some [("lower", 1)]⟩, ⟨"BBB", "bbb", none⟩]
      = [⟨"AAA", "aaa", none⟩] ∧
    ∀ t ∈ cycleStore (fun i => if i = "aaa" then some 0 else none)
        [⟨"AAA", "aaa", some [("lower", 1)]⟩, ⟨"BBB", "bbb", none⟩],
      t.symbol ≠ "BBB" := by
  refine ⟨rfl, rfl, ?_⟩
  decide

/-- C2: the claim says load-mutate-save sequences of the Monitor and a
command handler are effectively atomic (guarded by a mutual-exclusion
lock), so no update of one path is lost by the other path's save.  The
code has no lock, and between `load_targets` (line 47) and `save_targets`
(line 91) `check_prices` suspends at `await bot.send_message`: there the
handler of `add bbb bbbid` runs to completion and saves a store containing
BBB, after which the Monitor's save — computed from its stale load —
overwrites it with a store not containing BBB.  The handler's saved `add`
is lost. -/
theorem c2_add_lost_during_cycle :
    (handle_message_add (fun _ => none) ["add", "bbb", "bbbid"]
        [⟨"AAA", "aaa", some [("lower", 1)]⟩]).saved = true ∧
    (∃ t ∈ (interleavedCycleWithAdd (fun i => if i = "aaa" then some 0 else none)
        (fun _ => none) ["add", "bbb", "bbbid"]
        [⟨"AAA", "aaa", some [("lower", 1)]⟩]).1, t.symbol = "BBB") ∧
    ∀ t ∈ (interleavedCycleWithAdd (fun i => if i = "aaa" then some 0 else none)
        (fun _ => none) ["add", "bbb", "bbbid"]
        [⟨"AAA", "aaa", some [("lower", 1)]⟩]).2, t.symbol ≠ "BBB" := by
  refine ⟨rfl, ?_, ?_⟩ <;> decide

/-- C3: the claim says the very first `save` (no prior persisted state)
succeeds, with the absence of a backup being acceptable.  In the code,
`save_targets` begins with `shutil.copy(TARGETS_FILE, ...)`, which raises
`FileNotFoundError` when `targets.json` does not yet exist, so the first
save fails instead of succeeding.  (When a prior state does exist, the
backup does receive exactly the prior contents, as the second conjunct
shows on a concrete store.) -/
theorem c3_first_save_fails :
    save_targets ⟨none, none⟩ [⟨"SOL", "solana", none⟩] = .error "FileNotFoundError" ∧
    save_targets ⟨some [⟨"SOL", "solana", none⟩], none⟩ [⟨"ADA", "cardano", none⟩]
      = .ok ⟨some [⟨"ADA", "cardano", none⟩], some [⟨"SOL", "solana", none⟩]⟩ := by
  exact ⟨rfl, rfl⟩

/-- C8: evaluating a target with no remaining bounds (the `bounds` key
missing or an empty dict, the falsy test of line 60) against any price
produces no notification and returns the entry unchanged. -/
theorem c8_no_bounds_idempotent (t : Target) (price : Rat)
    (h : boundsFalsy t.bounds = true) :
    evalTarget t price = ([], t) := by
  unfold evalTarget
  rw [if_pos h]

/-- Witness for C8 at the bound-free target `⟨"SOL", "solana", none⟩` and
price 7. -/
theorem c8_no_bounds_idempotent_witness :
    evalTarget ⟨"SOL", "solana", none⟩ 7 = ([], ⟨"SOL", "solana", none⟩) :=
  c8_no_bounds_idempotent ⟨"SOL", "solana", none⟩ 7 (by decide)

/-- C4: an `add` command whose bound tokens all parse (so the handler
reaches `load_targets`, line 143) and whose symbol is already present in
the loaded watch-list under case-insensitive comparison performs no
mutation and no save; the store is returned unchanged and the reply
signals the duplicate. -/
theorem c4_add_duplicate_no_mutation (pf : String → Option Rat) (parts : List String)
    (store : List Target) (bounds : List (String × Rat))
    (hlen : 3 ≤ parts.length)
    (hparse : parseBounds pf (parts.drop 3) [] = .ok bounds)
    (hdup : store.any (fun t => strUpper t.symbol == strUpper (parts.getD 1 "")) = true) :
    handle_message_add pf parts store
      = ⟨store, some (duplicateReply (strUpper (parts.getD 1 ""))), false, false, true⟩ := by
  unfold handle_message_add
  rw [if_neg (by omega)]
  simp only [hparse, hdup, if_true]

/-- Witness for C4: `add sol solana` against a store already tracking SOL. -/
theorem c4_add_duplicate_no_mutation_witness :
    handle_message_add (fun _ => some 1) ["add", "sol", "solana"] [⟨"SOL", "solana", none⟩]
      = ⟨[⟨"SOL", "solana", none⟩], some (duplicateReply "SOL"), false, false, true⟩ :=
  c4_add_duplicate_no_mutation (fun _ => some 1) ["add", "sol", "solana"]
    [⟨"SOL", "solana", none⟩] [] (by decide) (by decide) (by decide)

/-- C5: an `add` command whose bound-parsing loop hits a value that
`float` rejects replies with an error naming the offending key and value,
and returns before `load_targets` (line 143) is ever reached: no state
change, no save, and the `loaded` flag stays false. -/
theorem c5_malformed_bound_aborts (pf : String → Option Rat) (parts : List String)
    (store : List Target) (k v : String)
    (hlen : 3 ≤ parts.length)
    (hparse : parseBounds pf (parts.drop 3) [] = .invalid k v) :
    handle_message_add pf parts store
      = ⟨store, some (invalidValueReply k v), false, false, false⟩ := by
  unfold handle_message_add
  rw [if_neg (by omega)]
  simp only [hparse]

/-- Witness for C5: `add sol solana lower=abc` where `float "abc"` fails. -/
theorem c5_malformed_bound_aborts_witness :
    handle_message_add (fun _ => none) ["add", "sol", "solana", "lower=abc"]
        [⟨"ADA", "cardano", none⟩]
      = ⟨[⟨"ADA", "cardano", none⟩], some (invalidValueReply "lower" "abc"),
          false, false, false⟩ :=
  c5_malformed_bound_aborts (fun _ => none) ["add", "sol", "solana", "lower=abc"]
    [⟨"ADA", "cardano", none⟩] "lower" "abc" (by decide) (by decide)

/-- C10: an `add` command whose bound-parsing loop reaches a token that
splits on `=` into more than two pieces (e.g. `lower=1=2`) makes the
`k, v = p.split("=")` unpacking raise an uncaught `ValueError`: the
handler produces no reply, performs no state mutation and no save, and
never reaches `load_targets`. -/
theorem c10_multi_eq_token_raises (pf : String → Option Rat) (parts : List String)
    (store : List Target)
    (hlen : 3 ≤ parts.length)
    (hparse : parseBounds pf (parts.drop 3) [] = .exn) :
    handle_message_add pf parts store = ⟨store, none, false, true, false⟩ := by
  unfold handle_message_add
  rw [if_neg (by omega)]
  simp only [hparse]

/-- Witness for C10: `add sol solana lower=1=2`. -/
theorem c10_multi_eq_token_raises_witness :
    handle_message_add (fun _ => some 1) ["add", "sol", "solana", "lower=1=2"]
        [⟨"ADA", "cardano", none⟩]
      = ⟨[⟨"ADA", "cardano", none⟩], none, false, true, false⟩ :=
  c10_multi_eq_token_raises (fun _ => some 1) ["add", "sol", "solana", "lower=1=2"]
    [⟨"ADA", "cardano", none⟩] (by decide) (by decide)

/-- C6, counterexample: the claim says that when the symbol is somehow
duplicated, only the first match is removed.  On the store
`[SOL/solana, SOL/solana2]`, `remove sol` filters out every
case-insensitive match (line 187 is a list comprehension keeping only
non-matches), leaving `[]` rather than the claimed `[SOL/solana2]`. -/
theorem c6_remove_deletes_all_matches :
    (handle_message_remove "sol" [⟨"SOL", "solana", none⟩, ⟨"SOL", "solana2", none⟩]).store = []
    ∧ (handle_message_remove "sol" [⟨"SOL", "solana", none⟩, ⟨"SOL", "solana2", none⟩]).store
        ≠ [⟨"SOL", "solana2", none⟩] := by
  decide

/-- C6, amended: `remove` deletes every case-insensitive match (all of
them, should the symbol be duplicated) and persists the result; when there
is no match the store is not mutated, nothing is saved, and the reply
signals not-found. -/
theorem c6_remove_semantics (symRaw : String) (store : List Target) :
    (handle_message_remove symRaw store).store
      = store.filter (fun t => strUpper t.symbol != strUpper (strTrim symRaw)) ∧
    (handle_message_remove symRaw store).exn = false ∧
    ((∀ t ∈ store, strUpper t.symbol ≠ strUpper (strTrim symRaw)) →
      handle_message_remove symRaw store
        = ⟨store, some (notFoundReply (strUpper (strTrim symRaw))), false, false, true⟩) ∧
    ((∃ t ∈ store, strUpper t.symbol = strUpper (strTrim symRaw)) →
      (handle_message_remove symRaw store).saved = true) := by
  unfold handle_message_remove
  by_cases hlen :
      (store.filter (fun t => strUpper t.symbol != strUpper (strTrim symRaw))).length
        = store.length
  · have heq : store.filter (fun t => strUpper t.symbol != strUpper (strTrim symRaw)) = store :=
      (List.filter_sublist store).eq_of_length hlen
    rw [if_pos hlen]
    refine ⟨heq.symm, rfl, fun _ => rfl, ?_⟩
    rintro ⟨t, ht, hsym⟩
    have := (List.filter_eq_self.mp heq) t ht
    rw [bne_iff_ne] at this
    exact absurd hsym this
  · rw [if_neg hlen]
    refine ⟨rfl, rfl, ?_, fun _ => rfl⟩
    intro hall
    exfalso
    apply hlen
    have heq : store.filter (fun t => strUpper t.symbol != strUpper (strTrim symRaw)) = store :=
      List.filter_eq_self.mpr (fun t ht => bne_iff_ne.mpr (hall t ht))
    rw [heq]

/-- Witness for C6's amended theorem: `remove xrp` against a store
tracking only SOL leaves the store unchanged, saves nothing, and replies
not-found. -/
theorem c6_remove_semantics_witness :
    (handle_message_remove "xrp" [⟨"SOL", "solana", none⟩]).store
        = [(⟨"SOL", "solana", none⟩ : Target)].filter
            (fun t => strUpper t.symbol != strUpper (strTrim "xrp")) ∧
    handle_message_remove "xrp" [⟨"SOL", "solana", none⟩]
      = ⟨[⟨"SOL", "solana", none⟩], some (notFoundReply "XRP"), false, false, true⟩ := by
  obtain ⟨h1, _, h3, _⟩ := c6_remove_semantics "xrp" [⟨"SOL", "solana", none⟩]
  exact ⟨h1, h3 (by decide)⟩

/-- C7: for a target carrying exactly the keys `lower` and `upper` (values
`lo` and `hi`), a price with `price ≤ lo` and `price ≥ hi` (the degenerate
configuration `lo ≥ hi`) makes one evaluation emit both notifications —
lower first — and return the entry with both bounds removed and the
`bounds` field omitted entirely. -/
theorem c7_both_bounds_fire (t : Target) (b : List (String × Rat)) (lo hi price : Rat)
    (hb : t.bounds = some b)
    (hOnly : ∀ p ∈ b, p.1 = "lower" ∨ p.1 = "upper")
    (hlo : dictFind "lower" b = some lo)
    (hhi : dictFind "upper" b = some hi)
    (h1 : price ≤ lo) (h2 : hi ≤ price) :
    evalTarget t price
      = ([Notif.lowerHit t.symbol lo price, Notif.upperHit t.symbol hi price],
          ⟨t.symbol, t.id, none⟩) := by
  have hbne : b ≠ [] := by
    intro h
    rw [h] at hlo
    simp [dictFind] at hlo
  have hfalsy : boundsFalsy t.bounds = false := by
    rw [hb]
    simp only [boundsFalsy, List.isEmpty_eq_false]
    exact hbne
  have hLF : lowerFires b price = true := by
    unfold lowerFires
    rw [hlo]
    exact decide_eq_true h1
  have hUF : upperFires b price = true := by
    unfold upperFires
    rw [hhi]
    exact decide_eq_true h2
  have hempty : dictPop "upper" (dictPop "lower" b) = [] := by
    unfold dictPop
    rw [List.filter_eq_nil_iff]
    intro p hp
    obtain ⟨hpb, hne⟩ := List.mem_filter.mp hp
    have hnl : p.1 ≠ "lower" := bne_iff_ne.mp hne
    rcases hOnly p hpb with h | h
    · exact absurd h hnl
    · simp [h]
  unfold evalTarget
  rw [if_neg (by simp [hfalsy])]
  rw [hb]
  simp only [Option.getD_some]
  unfold updatedBounds targetNotifs
  simp only [hLF, hUF, if_true, hlo, hhi, Option.getD_some]
  rw [hempty]
  simp

/-- Witness for C7 at the target `⟨"S", "s", [lower 3, upper 2]⟩`
and price 5/2. -/
theorem c7_both_bounds_fire_witness :
    evalTarget ⟨"S", "s", some [("lower", 3), ("upper", 2)]⟩ (5 / 2)
      = ([Notif.lowerHit "S" 3 (5 / 2), Notif.upperHit "S" 2 (5 / 2)],
          ⟨"S", "s", none⟩) :=
  c7_both_bounds_fire ⟨"S", "s", some [("lower", 3), ("upper", 2)]⟩
    [("lower", 3), ("upper", 2)] 3 2 (5 / 2) rfl (by decide) (by decide) (by decide)
    (by norm_num) (by norm_num)

/-- C9: (i) the bound-parsing loop of `add` stores every `key=value` token
into the bounds dict with its parsed value, whatever the key; (ii) a
successful `add` appends an entry carrying exactly that dict, which is
then persisted; (iii) a bounds key other than `lower` and `upper` is never
removed by the Monitor's evaluation: it survives into the updated entry's
bounds (so the `bounds` field is kept) with its value intact. -/
theorem c9_unrecognized_keys_persist :
    (∀ (pf : String → Option Rat) (p k v : String) (x : Rat)
        (rest : List String) (acc : List (String × Rat)),
        strContainsEq p = true → strSplitEq p = [k, v] → pf v = some x →
        parseBounds pf (p :: rest) acc = parseBounds pf rest (dictInsert k x acc)) ∧
    (∀ (pf : String → Option Rat) (parts : List String) (store : List Target)
        (bounds : List (String × Rat)),
        3 ≤ parts.length →
        parseBounds pf (parts.drop 3) [] = .ok bounds →
        store.any (fun t => strUpper t.symbol == strUpper (parts.getD 1 "")) = false →
        bounds ≠ [] →
        handle_message_add pf parts store
          = ⟨store ++ [⟨strUpper (parts.getD 1 ""), parts.getD 2 "", some bounds⟩],
              some (addedReply (strUpper (parts.getD 1 "")) (parts.getD 2 "") bounds),
              true, false, true⟩) ∧
    (∀ (t : Target) (price : Rat) (b : List (String × Rat)) (k : String) (x : Rat),
        t.bounds = some b → k ≠ "lower" → k ≠ "upper" → (k, x) ∈ b →
        ∃ b', (evalTarget t price).2.bounds = some b' ∧ (k, x) ∈ b') := by
  refine ⟨?_, ?_, ?_⟩
  · intro pf p k v x rest acc hcont hsplit hpf
    simp only [parseBounds, hcont, if_true, hsplit, hpf]
  · intro pf parts store bounds hlen hparse hAny hne
    unfold handle_message_add
    rw [if_neg (by omega)]
    simp only [hparse, hAny, Bool.false_eq_true, if_false]
    have hie : bounds.isEmpty = false := List.isEmpty_eq_false.mpr hne
    simp [hie]
  · intro t price b k x hb hkl hku hmem
    have step : ∀ (c : Bool) (key : String) (l : List (String × Rat)),
        k ≠ key → (k, x) ∈ l → (k, x) ∈ (if c then dictPop key l else l) := by
      intro c key l hne hm
      cases c
      · simpa using hm
      · simp only [if_true]
        unfold dictPop
        exact List.mem_filter.mpr ⟨hm, bne_iff_ne.mpr hne⟩
    have hmem2 : (k, x) ∈ updatedBounds b price := by
      unfold updatedBounds
      exact step _ "upper" _ hku (step _ "lower" _ hkl hmem)
    have hne2 : (updatedBounds b price).isEmpty = false :=
      List.isEmpty_eq_false.mpr (List.ne_nil_of_mem hmem2)
    have hfalsy : boundsFalsy t.bounds = false := by
      rw [hb]
      simp only [boundsFalsy, List.isEmpty_eq_false]
      exact List.ne_nil_of_mem hmem
    refine ⟨updatedBounds b price, ?_, hmem2⟩
    unfold evalTarget
    rw [if_neg (by simp [hfalsy])]
    rw [hb]
    simp [hne2]

/-- Witness for C9: the token `zig=4` is stored by the parse loop, the
resulting `add zig ...` entry is appended and saved, and a `zig` key in a
target's bounds survives an evaluation in which the `lower` bound fires. -/
theorem c9_unrecognized_keys_persist_witness :
    parseBounds (fun _ => some 4) ["zig=4"] [] = .ok [("zig", 4)] ∧
    handle_message_add (fun _ => some 4) ["add", "sol", "solana", "zig=4"] []
      = ⟨[⟨"SOL", "solana", some [("zig", 4)]⟩],
          some (addedReply "SOL" "solana" [("zig", 4)]), true, false, true⟩ ∧
    ∃ b', (evalTarget ⟨"S", "s", some [("zig", 4), ("lower", 3)]⟩ 1).2.bounds = some b'
      ∧ ("zig", (4 : Rat)) ∈ b' := by
  refine ⟨?_, ?_, ?_⟩
  · have h := c9_unrecognized_keys_persist.1 (fun _ => some 4) "zig=4" "zig" "4" 4 [] []
      (by decide) (by decide) rfl
    rw [h]
    rfl
  · exact c9_unrecognized_keys_persist.2.1 (fun _ => some 4) ["add", "sol", "solana", "zig=4"]
      [] [("zig", 4)] (by decide) (by decide) (by decide) (by decide)
  · exact c9_unrecognized_keys_persist.2.2 ⟨"S", "s", some [("zig", 4), ("lower", 3)]⟩ 1
      [("zig", 4), ("lower", 3)] "zig" 4 rfl (by decide) (by decide) (by decide)

end TokenBot
